import Mathlib

/-!
Shallow embedding of the AWS networking-security compliance plugin's
evaluation pipeline: the `Eval` and `Configure` methods of `main.go`,
together with the variant `Eval` found in the repository's unnamed source
files where a claim cites them.  Machine effects are made explicit:
`uuid.New()` is a fresh-counter supply, `time.Now()` reads a caller-supplied
clock at successive call indices, Go's nil combined error is the empty list
of joined causes, and a Go runtime panic is `Except.error ()`.
-/

namespace AwsNetSec

/-- Overall run status (`proto.ExecutionStatus`). -/
inductive Status where
  | success
  | failure
  deriving DecidableEq, Repr

/-- Finding target state (`runner.FindingTargetStatusSatisfied` /
`runner.FindingTargetStatusNotSatisfied`). -/
inductive FindingStatus where
  | satisfied
  | notSatisfied
  deriving DecidableEq, Repr

/-- One policy violation as returned by the policy manager. -/
structure Violation where
  title : String
  description : String
  remarks : String
  deriving DecidableEq, Repr

/-- One hyperlink attached to a risk entry. -/
structure RiskLink where
  url : String
  text : String
  deriving DecidableEq, Repr

/-- One risk entry as returned by the policy manager. -/
structure RiskEntry where
  title : String
  description : String
  statement : String
  links : List RiskLink
  deriving DecidableEq, Repr

/-- The policy identity attached to a verdict: the raw package string and the
rendering of its PurePackage() (computed by the external policy manager and
carried here as data). -/
structure Policy where
  package : String
  purePackage : String
  deriving DecidableEq, Repr

/-- One verdict (`policyManager.Result`): the outcome of evaluating one policy
against one resource. -/
structure PolicyResult where
  policy : Policy
  violations : List Violation
  risks : List RiskEntry
  deriving DecidableEq, Repr

/-- proto.Link, restricted to the fields `main.go` sets. -/
structure ProtoLink where
  href : String
  text : Option String
  deriving DecidableEq, Repr

/-- proto.Observation, restricted to the fields `main.go` sets.  Uuids are
values of the fresh-identifier counter, timestamps are clock ticks. -/
structure ProtoObservation where
  uuid : Nat
  title : Option String
  description : String
  collected : Nat
  expires : Nat
  relevantEvidence : List String
  labels : List (String × String)
  deriving DecidableEq, Repr

/-- proto.Finding, restricted to the fields `main.go` sets. -/
structure ProtoFinding where
  title : String
  description : String
  remarks : Option String
  relatedObservations : List Nat
  status : FindingStatus
  labels : List (String × String)
  deriving DecidableEq, Repr

/-- proto.Risk, restricted to the fields `main.go` sets. -/
structure ProtoRisk where
  title : String
  description : String
  statement : String
  props : List (String × String)
  links : List ProtoLink
  deriving DecidableEq, Repr

/-- An EC2 security group as the AWS SDK returns it: pointer-typed string
fields are `Option`s (`none` models a nil pointer); the permission rule lists
are carried opaquely. -/
structure SecurityGroup where
  groupId : Option String
  groupName : Option String
  vpcId : Option String
  ipPermissions : List String
  ipPermissionsEgress : List String
  deriving DecidableEq, Repr

/-- aws.ToString: a nil string pointer becomes the empty string. -/
def awsToString (s : Option String) : String := s.getD ""

/-- The attribute document built per security group (`main.go` lines 62-70). -/
structure NormalizedDoc where
  securityGroupID : String
  ipPermissions : List String
  ipPermissionsEgress : List String
  deriving DecidableEq, Repr

/-- Resource normalisation (`main.go` lines 62-70): a total function, no
failure is possible. -/
def normalize (g : SecurityGroup) : NormalizedDoc :=
  { securityGroupID := awsToString g.groupId
    ipPermissions := g.ipPermissions
    ipPermissionsEgress := g.ipPermissionsEgress }

/-- Mutable machine state threaded through one run: the fresh-identifier
counter backing `uuid.New()` and the call index of the next `time.Now()`. -/
structure RunState where
  nextUuid : Nat
  clockIdx : Nat
  deriving DecidableEq, Repr

/-- uuid.New(): return the next fresh identifier and advance the supply. -/
def freshUuid (σ : RunState) : Nat × RunState :=
  (σ.nextUuid, { σ with nextUuid := σ.nextUuid + 1 })

/-- time.Now(): read the caller-supplied clock at the current call index and
advance the index. -/
def readNow (clock : Nat → Nat) (σ : RunState) : Nat × RunState :=
  (clock σ.clockIdx, { σ with clockIdx := σ.clockIdx + 1 })

/-- Month length in clock ticks.  t.AddDate(0, 1, 0) is modelled as adding a
fixed month duration; calendar normalisation is abstracted away, no claim here
depends on calendar edge cases. -/
def monthTicks : Nat := 2592000

/-- t.AddDate(0, 1, 0) on a timestamp. -/
def addOneMonth (t : Nat) : Nat := t + monthTicks

/-- The artifact label map literal used throughout `main.go`
(lines 106-111, 123-128, 148-153 and 172-177), in literal key order. -/
def mainLabels (pkg : String) (sgId : String) : List (String × String) :=
  [("package", pkg), ("type", "aws"), ("service", "security-groups"),
   ("security_group_id", sgId)]

/-- Link translation inside the risk loop (`main.go` lines 184-189). -/
def riskLinkToProto (l : RiskLink) : ProtoLink :=
  { href := l.url, text := some l.text }

/-- Risk translation (`main.go` lines 191-197). -/
def riskToProto (r : RiskEntry) : ProtoRisk :=
  { title := r.title
    description := r.description
    statement := r.statement
    props := []
    links := r.links.map riskLinkToProto }

/-- Artifacts accumulated into one assessment result. -/
structure Artifacts where
  observations : List ProtoObservation
  findings : List ProtoFinding
  risks : List ProtoRisk
  deriving DecidableEq, Repr

/-- The Evidence Assembler: the body of the per-verdict loop of `main.go`
(lines 89-199).  An empty violation list takes the satisfied branch
(lines 93-130), a non-empty one the violation branch (lines 134-180); the risk
loop (lines 182-198) runs in both cases. -/
def assembleVerdict (clock : Nat → Nat) (sgId : String) (r : PolicyResult)
    (σ : RunState) : Artifacts × RunState :=
  if r.violations.isEmpty then
    let (u, σ1) := freshUuid σ
    let (t1, σ2) := readNow clock σ1
    let (t2, σ3) := readNow clock σ2
    let labels := mainLabels r.policy.package sgId
    let obs : ProtoObservation :=
      { uuid := u
        title := some "The plugin succeeded. No compliance issues to report."
        description := "The plugin policies did not return any violations. The configuration is in compliance with policies."
        collected := t1
        expires := addOneMonth t2
        relevantEvidence :=
          ["Policy " ++ r.policy.purePackage ++
           " was evaluated, and no violations were found on machineId: ARN:12345"]
        labels := labels }
    let find : ProtoFinding :=
      { title := "No violations found on " ++ r.policy.purePackage
        description := "No violations found on the " ++ r.policy.purePackage ++
          " policy within the Template Compliance Plugin."
        remarks := none
        relatedObservations := []
        status := FindingStatus.satisfied
        labels := labels }
    ({ observations := [obs], findings := [find]
       risks := r.risks.map riskToProto }, σ3)
  else
    let (u, σ1) := freshUuid σ
    let (t1, σ2) := readNow clock σ1
    let (t2, σ3) := readNow clock σ2
    let labels := mainLabels r.policy.package sgId
    let obs : ProtoObservation :=
      { uuid := u
        title := some ("The plugin found violations for policy " ++
          r.policy.purePackage ++ " on machineId: ARN:12345")
        description := "Observed " ++ toString r.violations.length ++
          " violation(s) for policy " ++ r.policy.purePackage
        collected := t1
        expires := addOneMonth t2
        relevantEvidence :=
          ["Policy " ++ r.policy.purePackage ++ " was evaluated, and " ++
           toString r.violations.length ++ " violations were found"]
        labels := labels }
    let finds := r.violations.map fun v =>
      ({ title := v.title
         description := v.description
         remarks := some v.remarks
         relatedObservations := [u]
         status := FindingStatus.notSatisfied
         labels := labels } : ProtoFinding)
    ({ observations := [obs], findings := finds
       risks := r.risks.map riskToProto }, σ3)

/-- The loop over all verdicts of one (resource, policy) pair, appending into
the shared assessment result (`AddObservation` / `AddFinding` /
`AddRiskEntry` append). -/
def assembleResults (clock : Nat → Nat) (sgId : String) :
    List PolicyResult → RunState → Artifacts × RunState
  | [], σ => ({ observations := [], findings := [], risks := [] }, σ)
  | r :: rest, σ =>
    let a := assembleVerdict clock sgId r σ
    let b := assembleResults clock sgId rest a.2
    ({ observations := a.1.observations ++ b.1.observations
       findings := a.1.findings ++ b.1.findings
       risks := a.1.risks ++ b.1.risks }, b.2)

/-- The seed-label map literal handed to the stream-identifier function at
`main.go` lines 206-210: resource type, policy path, resource id. -/
structure SeedMap where
  type : String
  policy : String
  security_group_id : String
  deriving DecidableEq, Repr

/-- Modelled from the spec: `sdk.SeededUUID` lives in the external
configuration-service SDK, not in this repository's sources.  The spec calls
it a stable, deterministic, collision-resistant seeding function over the
label set, with no collision on the tested input domain, so the produced
identifier is represented by the canonical sorted key/value list of its
seed map. -/
def SeededUUID (m : SeedMap) : List (String × String) :=
  [("_policy", m.policy), ("security_group_id", m.security_group_id),
   ("type", m.type)]

/-- External collaborators and environment of one `Eval` run of `main.go`:
the SDK config-load outcome, the DescribeSecurityGroups outcome, the caller's
policy paths, the opaque policy evaluator, and the sink's per-pair outcome. -/
structure EvalInput where
  configErr : Option String
  fetch : Except String (List SecurityGroup)
  policyPaths : List String
  execPolicy : NormalizedDoc → String → Except String (List PolicyResult)
  publishErr : NormalizedDoc → String → Option String

/-- One assessment result as handed to `apiHelper.CreateResult`
(`main.go` lines 225-234). -/
structure Published where
  streamId : List (String × String)
  resultLabels : List (String × String)
  policyPath : String
  title : String
  observations : List ProtoObservation
  findings : List ProtoFinding
  risks : List ProtoRisk
  startTime : Nat
  endTime : Nat
  logEntries : List (String × String × Nat × Nat)
  deriving DecidableEq, Repr

/-- What happened to one (resource, policy) pair: the evaluator failed, or the
assembled result was published, or the sink rejected it. -/
inductive PairOutcome where
  | evalFailed (e : String)
  | published (a : Published)
  | publishFailed (e : String) (a : Published)
  deriving DecidableEq, Repr

/-- Trace record for one (resource, policy) pair, in processing order. -/
structure PairRecord where
  sgId : String
  policyPath : String
  outcome : PairOutcome
  deriving DecidableEq, Repr

/-- The body of the inner policy loop of `main.go` (lines 76-240) for one
(security group, policy path) pair. -/
def evalPair (clock : Nat → Nat) (input : EvalInput) (startTime : Nat)
    (doc : NormalizedDoc) (policyPath : String) (σ : RunState) :
    PairOutcome × RunState :=
  match input.execPolicy doc policyPath with
  | .error e => (.evalFailed e, σ)
  | .ok results =>
    let (arts, σ1) := assembleResults clock doc.securityGroupID results σ
    let (endT, σ2) := readNow clock σ1
    let pub : Published :=
      { streamId := SeededUUID
          { type := "aws", policy := policyPath
            security_group_id := doc.securityGroupID }
        resultLabels :=
          [("type", "aws"), ("service", "security-groups"),
           ("_policy", policyPath),
           ("security_group_id", doc.securityGroupID)]
        policyPath := policyPath
        title := "Security Group checks - AWS plugin"
        observations := arts.observations
        findings := arts.findings
        risks := arts.risks
        startTime := startTime
        endTime := endT
        logEntries := [("Template check",
          "Template plugin checks completed successfully", startTime, endT)] }
    match input.publishErr doc policyPath with
    | some e => (.publishFailed e pub, σ2)
    | none => (.published pub, σ2)

/-- Run bookkeeping of `Eval`: the machine state, `evalStatus`, and the joined
error as the ordered list of its causes (a Go nil error is the empty list). -/
structure LoopState where
  σ : RunState
  status : Status
  errors : List String
  deriving Repr

/-- Error recording of `main.go`: an evaluator failure (lines 78-83) or a
publish failure (lines 235-239) sets `evalStatus` to FAILURE and joins the
error into the accumulated error; a successful publish changes nothing. -/
def stepRecord (σ1 : RunState) (st : LoopState) : PairOutcome → LoopState
  | .evalFailed e =>
    { σ := σ1, status := .failure, errors := st.errors ++ [e] }
  | .published _ => { σ := σ1, status := st.status, errors := st.errors }
  | .publishFailed e _ =>
    { σ := σ1, status := .failure, errors := st.errors ++ [e] }

/-- Inner loop over policy paths for one security group (`main.go` line 76):
an evaluator failure or a publish failure is joined into the accumulated error
and the loop continues. -/
def evalPolicyLoop (clock : Nat → Nat) (input : EvalInput) (startTime : Nat)
    (doc : NormalizedDoc) : List String → LoopState → List PairRecord × LoopState
  | [], st => ([], st)
  | p :: rest, st =>
    let pr := evalPair clock input startTime doc p st.σ
    let st1 := stepRecord pr.2 st pr.1
    let next := evalPolicyLoop clock input startTime doc rest st1
    ({ sgId := doc.securityGroupID, policyPath := p, outcome := pr.1 }
       :: next.1, next.2)

/-- Outer loop over security groups (`main.go` line 75). -/
def evalGroupLoop (clock : Nat → Nat) (input : EvalInput) (startTime : Nat) :
    List NormalizedDoc → LoopState → List PairRecord × LoopState
  | [], st => ([], st)
  | d :: rest, st =>
    let x := evalPolicyLoop clock input startTime d input.policyPaths st
    let y := evalGroupLoop clock input startTime rest x.2
    (x.1 ++ y.1, y.2)

/-- The observable outcome of one `Eval` run of `main.go`
(lines 243-245), together with the processed pair trace. -/
structure RunResult where
  pairs : List PairRecord
  status : Status
  errors : List String
  deriving Repr

/-- `Eval` of `main.go` (lines 39-246).  `Except.error ()` is a Go runtime
panic: when DescribeSecurityGroups fails its output pointer is nil and the
range expression at line 63 dereferences it. -/
def mainEval (clock : Nat → Nat) (input : EvalInput) : Except Unit RunResult :=
  let s0 := readNow clock { nextUuid := 0, clockIdx := 0 }
  let st0 : LoopState :=
    match input.configErr with
    | some e => { σ := s0.2, status := .failure, errors := [e] }
    | none => { σ := s0.2, status := .success, errors := [] }
  match input.fetch with
  | .error _ => .error ()
  | .ok groups =>
    let r := evalGroupLoop clock input s0.1 (groups.map normalize) st0
    .ok { pairs := r.1, status := r.2.status, errors := r.2.errors }

/-- Observations carried by one pair outcome (a publish failure has still
built them; an evaluator failure built none). -/
def PairOutcome.observationsOf : PairOutcome → List ProtoObservation
  | .evalFailed _ => []
  | .published a => a.observations
  | .publishFailed _ a => a.observations

/-- All observations carried by a list of pair records, in order. -/
def recordsObservations : List PairRecord → List ProtoObservation
  | [] => []
  | rec :: rest => rec.outcome.observationsOf ++ recordsObservations rest

/-- All observations emitted across one run. -/
def runObservations (run : RunResult) : List ProtoObservation :=
  recordsObservations run.pairs

/-- The plugin's stored state: the configuration map. -/
structure PluginState where
  config : List (String × String)
  deriving DecidableEq, Repr

/-- proto.ConfigureResponse: `Configure` sets none of its fields. -/
structure ConfigureResponse where
  deriving DecidableEq, Repr

/-- `Configure` (`main.go` lines 34-37, identical in both unnamed variants):
wholesale replacement of the stored configuration map, empty response, nil
error; no validation of the incoming map is performed. -/
def Configure (_s : PluginState) (req : List (String × String)) :
    PluginState × ConfigureResponse × Option String :=
  ({ config := req }, {}, none)

/-- Go dereference of a possibly-nil string pointer: nil panics. -/
def derefString : Option String → Except Unit String
  | some s => .ok s
  | none => .error ()

/-- Per-group label and subject construction of the variant `Eval` (unnamed
part file, lines 62-104): it dereferences GroupId, GroupName and VpcId with no
nil checks, so a missing optional field panics. -/
def variantGroupSetup (g : SecurityGroup) :
    Except Unit (String × List (String × String)) := do
  let gid ← derefString g.groupId
  let gname ← derefString g.groupName
  let vpc ← derefString g.vpcId
  .ok (gid,
    [("type", "aws"), ("service", "security-group"), ("instance-id", gid),
     ("instance-name", gname), ("vpc-id", vpc)])

/-- External collaborators of the variant `Eval` (unnamed part file): the
config-load and fetch outcomes, the caller's policy paths, the per-pair policy
processor outcome (observations and findings carried opaquely, plus an
optional error), and the two per-group publish outcomes. -/
structure VariantInput where
  configErr : Option String
  fetch : Except String (List SecurityGroup)
  policyPaths : List String
  generate : SecurityGroup → String → (List Nat × List Nat × Option String)
  pubObsErr : SecurityGroup → Option String
  pubFindsErr : SecurityGroup → Option String

/-- The observable outcome of the variant `Eval`: which groups had their
policies evaluated, which groups had both publish calls succeed, and the
returned status and error causes. -/
structure VariantRun where
  evaluated : List String
  delivered : List String
  status : Status
  errors : List String
  deriving DecidableEq, Repr

/-- Per-group policy loop of the variant `Eval` (lines 135-156): observations
and findings are concatenated and a processor error is joined into the
accumulated error (the status flag is not touched there). -/
def variantPolicyLoop (input : VariantInput) (g : SecurityGroup) :
    List String → List Nat × List Nat × List String
  | [] => ([], [], [])
  | p :: rest =>
    let (obs, finds, err) := input.generate g p
    let (obsR, findsR, errsR) := variantPolicyLoop input g rest
    (obs ++ obsR, finds ++ findsR, err.toList ++ errsR)

/-- Group loop of the variant `Eval` (lines 57-171): after the policy loop,
`CreateObservations` and then `CreateFindings` are called for the whole group;
if either fails, the function returns immediately with status FAILURE and that
single error, abandoning all remaining groups and the accumulated causes. -/
def variantGroupLoop (input : VariantInput) :
    List SecurityGroup → Status → List String → List String → List String →
    Except Unit VariantRun
  | [], status, errs, evalAcc, delAcc =>
    .ok { evaluated := evalAcc, delivered := delAcc
          status := status, errors := errs }
  | g :: rest, status, errs, evalAcc, delAcc =>
    match variantGroupSetup g with
    | .error _ => .error ()
    | .ok (gid, _labels) =>
      let (_obs, _finds, newErrs) := variantPolicyLoop input g input.policyPaths
      let errs1 := errs ++ newErrs
      match input.pubObsErr g with
      | some e =>
        .ok { evaluated := evalAcc ++ [gid], delivered := delAcc
              status := .failure, errors := [e] }
      | none =>
        match input.pubFindsErr g with
        | some e =>
          .ok { evaluated := evalAcc ++ [gid], delivered := delAcc
                status := .failure, errors := [e] }
        | none =>
          variantGroupLoop input rest status errs1 (evalAcc ++ [gid])
            (delAcc ++ [gid])

/-- The variant `Eval` (unnamed part file, lines 34-176).  The fetch-failure
branch records the error and then the range expression dereferences the nil
output pointer, a panic, exactly as in `main.go`. -/
def variantEval (input : VariantInput) : Except Unit VariantRun :=
  let st0 :=
    match input.configErr with
    | some e => (Status.failure, [e])
    | none => (Status.success, ([] : List String))
  match input.fetch with
  | .error _ => .error ()
  | .ok groups => variantGroupLoop input groups st0.1 st0.2 [] []

/-! Concrete sample data used by witnesses and counterexamples. -/

/-- A strictly increasing sample clock: call index i happens at tick i. -/
def tickClock : Nat → Nat := fun i => i

/-- A fully populated sample security group. -/
def sgSample : SecurityGroup :=
  { groupId := some "sg-1", groupName := some "web", vpcId := some "vpc-1"
    ipPermissions := [], ipPermissionsEgress := [] }

/-- A second fully populated sample security group. -/
def sgSample2 : SecurityGroup :=
  { groupId := some "sg-2", groupName := some "db", vpcId := some "vpc-1"
    ipPermissions := [], ipPermissionsEgress := [] }

/-- A sample security group whose optional VpcId pointer is nil. -/
def sgNoVpc : SecurityGroup :=
  { groupId := some "sg-9", groupName := some "web", vpcId := none
    ipPermissions := [], ipPermissionsEgress := [] }

/-- A sample verdict with no violations and one risk entry. -/
def verdictClean : PolicyResult :=
  { policy := { package := "data.sg.check", purePackage := "sg.check" }
    violations := []
    risks := [{ title := "Open egress", description := "Egress open wide"
                statement := "Restrict egress"
                links := [{ url := "https://docs.example", text := "docs" }] }] }

/-- A sample verdict with two violations. -/
def verdictBad : PolicyResult :=
  { policy := { package := "data.sg.check", purePackage := "sg.check" }
    violations :=
      [{ title := "Port 22 open", description := "SSH port open to world"
         remarks := "close it" },
       { title := "Port 80 open", description := "HTTP port open to world"
         remarks := "use TLS" }]
    risks := [] }

/-- Run input for the C1 witness: one group, one policy, a verdict with two
violations, everything external succeeding. -/
def c1Input : EvalInput :=
  { configErr := none
    fetch := .ok [sgSample]
    policyPaths := ["policies/a"]
    execPolicy := fun _ _ => .ok [verdictBad]
    publishErr := fun _ _ => none }

/-- The run outcome of `c1Input`. -/
def c1Run : RunResult :=
  (mainEval tickClock c1Input).toOption.getD
    { pairs := [], status := .success, errors := [] }

/-- Run input for the C4 witness: one group, two policies, the sink failing
on the first policy path only. -/
def c4wInput : EvalInput :=
  { configErr := none
    fetch := .ok [sgSample]
    policyPaths := ["policies/a", "policies/b"]
    execPolicy := fun _ _ => .ok [verdictClean]
    publishErr := fun _ p => if p = "policies/a" then some "sink down" else none }

/-- The run outcome of `c4wInput`. -/
def c4wRun : RunResult :=
  (mainEval tickClock c4wInput).toOption.getD
    { pairs := [], status := .success, errors := [] }

/-- Variant-Eval input for the C4 counterexample: two groups, one policy,
`CreateObservations` failing for the first group only. -/
def c4vInput : VariantInput :=
  { configErr := none
    fetch := .ok [sgSample, sgSample2]
    policyPaths := ["policies/a"]
    generate := fun _ _ => ([], [], none)
    pubObsErr := fun g => if g.groupId = some "sg-1" then some "sink down" else none
    pubFindsErr := fun _ => none }

/-- Run input for the C5 witness: the policy evaluator failing. -/
def c5wInput : EvalInput :=
  { configErr := none
    fetch := .ok [sgSample]
    policyPaths := ["policies/a"]
    execPolicy := fun _ _ => .error "opa: parse error"
    publishErr := fun _ _ => none }

/-- The run outcome of `c5wInput`. -/
def c5wRun : RunResult :=
  (mainEval tickClock c5wInput).toOption.getD
    { pairs := [], status := .success, errors := [] }

/-- Run input for C7: the provider enumeration call fails. -/
def c7Input : EvalInput :=
  { configErr := none
    fetch := .error "RequestError: send request failed"
    policyPaths := ["policies/a"]
    execPolicy := fun _ _ => .ok []
    publishErr := fun _ _ => none }

/-- Variant-Eval input for C8: one security group with a nil VpcId. -/
def c8Input : VariantInput :=
  { configErr := none
    fetch := .ok [sgNoVpc]
    policyPaths := ["policies/a"]
    generate := fun _ _ => ([], [], none)
    pubObsErr := fun _ => none
    pubFindsErr := fun _ => none }

/-- Run input for C9: one group, one policy, one clean verdict. -/
def c9Input : EvalInput :=
  { configErr := none
    fetch := .ok [sgSample]
    policyPaths := ["policies/a"]
    execPolicy := fun _ _ => .ok [verdictClean]
    publishErr := fun _ _ => none }

/-- The run outcome of `c9Input` under the strictly increasing clock. -/
def c9Run : RunResult :=
  (mainEval tickClock c9Input).toOption.getD
    { pairs := [], status := .success, errors := [] }

/-- The assessment result published for the C3 witness pair. -/
def c3wPub : Published :=
  match (evalPair tickClock c9Input 0 (normalize sgSample) "policies/a"
      { nextUuid := 0, clockIdx := 0 }).1 with
  | .published a => a
  | .publishFailed _ a => a
  | .evalFailed _ =>
    { streamId := [], resultLabels := [], policyPath := "", title := ""
      observations := [], findings := [], risks := []
      startTime := 0, endTime := 0, logEntries := [] }

/-! Structural lemmas about the Evidence Assembler. -/

theorem assembleVerdict_snd (c : Nat → Nat) (s : String) (r : PolicyResult)
    (σ : RunState) :
    (assembleVerdict c s r σ).2 = ⟨σ.nextUuid + 1, σ.clockIdx + 2⟩ := by
  unfold assembleVerdict freshUuid readNow
  split <;> rfl

theorem assembleVerdict_obs_uuids (c : Nat → Nat) (s : String)
    (r : PolicyResult) (σ : RunState) :
    (assembleVerdict c s r σ).1.observations.map ProtoObservation.uuid
      = [σ.nextUuid] := by
  unfold assembleVerdict freshUuid readNow
  split <;> rfl

theorem assembleVerdict_obs_clock (c : Nat → Nat) (s : String)
    (r : PolicyResult) (σ : RunState) :
    ∀ obs ∈ (assembleVerdict c s r σ).1.observations,
      obs.collected = c σ.clockIdx ∧
      obs.expires = addOneMonth (c (σ.clockIdx + 1)) := by
  unfold assembleVerdict freshUuid readNow
  split <;>
    · intro obs h
      simp only [List.mem_singleton] at h
      subst h
      exact ⟨rfl, rfl⟩

theorem assembleResults_snd (c : Nat → Nat) (s : String) :
    ∀ (rs : List PolicyResult) (σ : RunState),
      (assembleResults c s rs σ).2
        = ⟨σ.nextUuid + rs.length, σ.clockIdx + 2 * rs.length⟩ := by
  intro rs
  induction rs with
  | nil => intro σ; rfl
  | cons r rest ih =>
    intro σ
    show (assembleResults c s rest (assembleVerdict c s r σ).2).2 = _
    rw [ih, assembleVerdict_snd]
    simp only [RunState.mk.injEq, List.length_cons]
    omega

theorem assembleResults_obs_uuids (c : Nat → Nat) (s : String) :
    ∀ (rs : List PolicyResult) (σ : RunState),
      (assembleResults c s rs σ).1.observations.map ProtoObservation.uuid
        = List.range' σ.nextUuid rs.length := by
  intro rs
  induction rs with
  | nil => intro σ; rfl
  | cons r rest ih =>
    intro σ
    show ((assembleVerdict c s r σ).1.observations
        ++ (assembleResults c s rest (assembleVerdict c s r σ).2).1.observations).map
          ProtoObservation.uuid = _
    rw [List.map_append, assembleVerdict_obs_uuids, ih, assembleVerdict_snd]
    simp [List.range'_succ]

theorem assembleResults_obs_clock (c : Nat → Nat) (s : String) :
    ∀ (rs : List PolicyResult) (σ : RunState),
      ∀ obs ∈ (assembleResults c s rs σ).1.observations,
        ∃ i, obs.collected = c i ∧ obs.expires = addOneMonth (c (i + 1)) := by
  intro rs
  induction rs with
  | nil => intro σ obs h; exact absurd h (List.not_mem_nil obs)
  | cons r rest ih =>
    intro σ obs h
    have h' : obs ∈ (assembleVerdict c s r σ).1.observations
        ++ (assembleResults c s rest (assembleVerdict c s r σ).2).1.observations := h
    rcases List.mem_append.mp h' with hl | hr
    · exact ⟨σ.clockIdx, assembleVerdict_obs_clock c s r σ obs hl⟩
    · exact ih _ obs hr

/-! Structural lemmas about one (resource, policy) pair. -/

theorem evalPair_obs_uuids (c : Nat → Nat) (input : EvalInput) (t : Nat)
    (doc : NormalizedDoc) (p : String) (σ : RunState) :
    ∃ k, (evalPair c input t doc p σ).1.observationsOf.map ProtoObservation.uuid
          = List.range' σ.nextUuid k ∧
        (evalPair c input t doc p σ).2.nextUuid = σ.nextUuid + k := by
  cases hex : input.execPolicy doc p with
  | error e =>
    refine ⟨0, ?_, ?_⟩ <;> simp [evalPair, hex, PairOutcome.observationsOf]
  | ok results =>
    refine ⟨results.length, ?_, ?_⟩ <;>
      cases hpub : input.publishErr doc p <;>
        simp [evalPair, hex, hpub, PairOutcome.observationsOf, readNow,
          assembleResults_obs_uuids, assembleResults_snd]

theorem evalPair_obs_clock (c : Nat → Nat) (input : EvalInput) (t : Nat)
    (doc : NormalizedDoc) (p : String) (σ : RunState) :
    ∀ obs ∈ (evalPair c input t doc p σ).1.observationsOf,
      ∃ i, obs.collected = c i ∧ obs.expires = addOneMonth (c (i + 1)) := by
  intro obs h
  cases hex : input.execPolicy doc p with
  | error e => simp [evalPair, hex, PairOutcome.observationsOf] at h
  | ok results =>
    apply assembleResults_obs_clock c doc.securityGroupID results σ obs
    cases hpub : input.publishErr doc p <;>
      simpa [evalPair, hex, hpub, PairOutcome.observationsOf] using h

theorem evalPair_streamId (c : Nat → Nat) (input : EvalInput) (t : Nat)
    (doc : NormalizedDoc) (p : String) (σ : RunState) (a : Published)
    (h : (evalPair c input t doc p σ).1 = .published a ∨
         ∃ e, (evalPair c input t doc p σ).1 = .publishFailed e a) :
    a.streamId = SeededUUID
      { type := "aws", policy := p, security_group_id := doc.securityGroupID } := by
  cases hex : input.execPolicy doc p with
  | error e =>
    rcases h with h | ⟨e', h⟩ <;> simp [evalPair, hex] at h
  | ok results =>
    cases hpub : input.publishErr doc p with
    | none =>
      rcases h with h | ⟨e', h⟩ <;> simp [evalPair, hex, hpub] at h
      · subst h; rfl
    | some e =>
      rcases h with h | ⟨e', h⟩ <;> simp [evalPair, hex, hpub] at h
      · obtain ⟨-, h2⟩ := h
        subst h2; rfl

/-! Structural lemmas about error recording and the two loops. -/

theorem stepRecord_σ (σ1 : RunState) (st : LoopState) (o : PairOutcome) :
    (stepRecord σ1 st o).σ = σ1 := by
  cases o <;> rfl

theorem stepRecord_errors_mono (σ1 : RunState) (st : LoopState)
    (o : PairOutcome) (x : String) (h : x ∈ st.errors) :
    x ∈ (stepRecord σ1 st o).errors := by
  cases o <;> simp [stepRecord, List.mem_append] <;>
    first
    | exact h
    | exact Or.inl h

theorem stepRecord_inv (σ1 : RunState) (st : LoopState) (o : PairOutcome)
    (h : st.status = Status.failure ↔ st.errors ≠ []) :
    (stepRecord σ1 st o).status = Status.failure ↔
      (stepRecord σ1 st o).errors ≠ [] := by
  cases o <;> simp [stepRecord]
  · exact h

theorem evalPolicyLoop_σ_nextUuid (c : Nat → Nat) (input : EvalInput)
    (t : Nat) (doc : NormalizedDoc) :
    ∀ (ps : List String) (st : LoopState),
      ∃ k, (recordsObservations
              (evalPolicyLoop c input t doc ps st).1).map ProtoObservation.uuid
            = List.range' st.σ.nextUuid k ∧
          (evalPolicyLoop c input t doc ps st).2.σ.nextUuid
            = st.σ.nextUuid + k := by
  intro ps
  induction ps with
  | nil => intro st; exact ⟨0, rfl, rfl⟩
  | cons p rest ih =>
    intro st
    obtain ⟨k1, hk1, hσ1⟩ := evalPair_obs_uuids c input t doc p st.σ
    obtain ⟨k2, hk2, hσ2⟩ :=
      ih (stepRecord (evalPair c input t doc p st.σ).2 st
            (evalPair c input t doc p st.σ).1)
    refine ⟨k1 + k2, ?_, ?_⟩
    · show ((evalPair c input t doc p st.σ).1.observationsOf
          ++ recordsObservations (evalPolicyLoop c input t doc rest _).1).map
            ProtoObservation.uuid = _
      rw [List.map_append, hk1, hk2, stepRecord_σ, hσ1, List.range'_append_1]
      congr 1
      omega
    · show (evalPolicyLoop c input t doc rest _).2.σ.nextUuid = _
      rw [hσ2, stepRecord_σ, hσ1]
      omega

theorem recordsObservations_append (l1 l2 : List PairRecord) :
    recordsObservations (l1 ++ l2)
      = recordsObservations l1 ++ recordsObservations l2 := by
  induction l1 with
  | nil => rfl
  | cons r rest ih => simp [recordsObservations, ih]

theorem evalGroupLoop_σ_nextUuid (c : Nat → Nat) (input : EvalInput)
    (t : Nat) :
    ∀ (docs : List NormalizedDoc) (st : LoopState),
      ∃ k, (recordsObservations
              (evalGroupLoop c input t docs st).1).map ProtoObservation.uuid
            = List.range' st.σ.nextUuid k ∧
          (evalGroupLoop c input t docs st).2.σ.nextUuid
            = st.σ.nextUuid + k := by
  intro docs
  induction docs with
  | nil => intro st; exact ⟨0, rfl, rfl⟩
  | cons d rest ih =>
    intro st
    obtain ⟨k1, hk1, hσ1⟩ := evalPolicyLoop_σ_nextUuid c input t d
      input.policyPaths st
    obtain ⟨k2, hk2, hσ2⟩ := ih (evalPolicyLoop c input t d input.policyPaths st).2
    refine ⟨k1 + k2, ?_, ?_⟩
    · show (recordsObservations
          ((evalPolicyLoop c input t d input.policyPaths st).1
            ++ (evalGroupLoop c input t rest _).1)).map ProtoObservation.uuid = _
      rw [recordsObservations_append, List.map_append, hk1, hk2, hσ1,
        List.range'_append_1]
      congr 1
      omega
    · show (evalGroupLoop c input t rest _).2.σ.nextUuid = _
      rw [hσ2, hσ1]
      omega

theorem evalPolicyLoop_obs_clock (c : Nat → Nat) (input : EvalInput)
    (t : Nat) (doc : NormalizedDoc) :
    ∀ (ps : List String) (st : LoopState),
      ∀ obs ∈ recordsObservations (evalPolicyLoop c input t doc ps st).1,
        ∃ i, obs.collected = c i ∧ obs.expires = addOneMonth (c (i + 1)) := by
  intro ps
  induction ps with
  | nil => intro st obs h; exact absurd h (List.not_mem_nil obs)
  | cons p rest ih =>
    intro st obs h
    have h' : obs ∈ (evalPair c input t doc p st.σ).1.observationsOf
        ++ recordsObservations (evalPolicyLoop c input t doc rest
             (stepRecord (evalPair c input t doc p st.σ).2 st
               (evalPair c input t doc p st.σ).1)).1 := h
    rcases List.mem_append.mp h' with hl | hr
    · exact evalPair_obs_clock c input t doc p st.σ obs hl
    · exact ih _ obs hr

theorem evalGroupLoop_obs_clock (c : Nat → Nat) (input : EvalInput) (t : Nat) :
    ∀ (docs : List NormalizedDoc) (st : LoopState),
      ∀ obs ∈ recordsObservations (evalGroupLoop c input t docs st).1,
        ∃ i, obs.collected = c i ∧ obs.expires = addOneMonth (c (i + 1)) := by
  intro docs
  induction docs with
  | nil => intro st obs h; exact absurd h (List.not_mem_nil obs)
  | cons d rest ih =>
    intro st obs h
    have h' : obs ∈ recordsObservations
          ((evalPolicyLoop c input t d input.policyPaths st).1
            ++ (evalGroupLoop c input t rest
                  (evalPolicyLoop c input t d input.policyPaths st).2).1) := h
    rw [recordsObservations_append] at h'
    rcases List.mem_append.mp h' with hl | hr
    · exact evalPolicyLoop_obs_clock c input t d input.policyPaths st obs hl
    · exact ih _ obs hr

theorem evalPolicyLoop_inv (c : Nat → Nat) (input : EvalInput) (t : Nat)
    (doc : NormalizedDoc) :
    ∀ (ps : List String) (st : LoopState),
      (st.status = Status.failure ↔ st.errors ≠ []) →
      ((evalPolicyLoop c input t doc ps st).2.status = Status.failure ↔
        (evalPolicyLoop c input t doc ps st).2.errors ≠ []) := by
  intro ps
  induction ps with
  | nil => intro st h; exact h
  | cons p rest ih =>
    intro st h
    exact ih _ (stepRecord_inv _ _ _ h)

theorem evalGroupLoop_inv (c : Nat → Nat) (input : EvalInput) (t : Nat) :
    ∀ (docs : List NormalizedDoc) (st : LoopState),
      (st.status = Status.failure ↔ st.errors ≠ []) →
      ((evalGroupLoop c input t docs st).2.status = Status.failure ↔
        (evalGroupLoop c input t docs st).2.errors ≠ []) := by
  intro docs
  induction docs with
  | nil => intro st h; exact h
  | cons d rest ih =>
    intro st h
    exact ih _ (evalPolicyLoop_inv c input t d input.policyPaths st h)

theorem evalPolicyLoop_keys (c : Nat → Nat) (input : EvalInput) (t : Nat)
    (doc : NormalizedDoc) :
    ∀ (ps : List String) (st : LoopState),
      (evalPolicyLoop c input t doc ps st).1.map
          (fun rec => (rec.sgId, rec.policyPath))
        = ps.map fun p => (doc.securityGroupID, p) := by
  intro ps
  induction ps with
  | nil => intro st; rfl
  | cons p rest ih =>
    intro st
    show ({ sgId := doc.securityGroupID, policyPath := p
            outcome := (evalPair c input t doc p st.σ).1 } :: _ :
        List PairRecord).map _ = _
    rw [List.map_cons, ih]
    rfl

theorem evalGroupLoop_keys (c : Nat → Nat) (input : EvalInput) (t : Nat) :
    ∀ (docs : List NormalizedDoc) (st : LoopState),
      (evalGroupLoop c input t docs st).1.map
          (fun rec => (rec.sgId, rec.policyPath))
        = docs.flatMap fun d =>
            input.policyPaths.map fun p => (d.securityGroupID, p) := by
  intro docs
  induction docs with
  | nil => intro st; rfl
  | cons d rest ih =>
    intro st
    show ((evalPolicyLoop c input t d input.policyPaths st).1
        ++ (evalGroupLoop c input t rest _).1).map _ = _
    rw [List.map_append, evalPolicyLoop_keys, ih, List.flatMap_cons]

theorem evalPolicyLoop_errors_mono (c : Nat → Nat) (input : EvalInput)
    (t : Nat) (doc : NormalizedDoc) :
    ∀ (ps : List String) (st : LoopState) (x : String),
      x ∈ st.errors → x ∈ (evalPolicyLoop c input t doc ps st).2.errors := by
  intro ps
  induction ps with
  | nil => intro st x h; exact h
  | cons p rest ih =>
    intro st x h
    exact ih _ x (stepRecord_errors_mono _ _ _ x h)

theorem evalGroupLoop_errors_mono (c : Nat → Nat) (input : EvalInput)
    (t : Nat) :
    ∀ (docs : List NormalizedDoc) (st : LoopState) (x : String),
      x ∈ st.errors → x ∈ (evalGroupLoop c input t docs st).2.errors := by
  intro docs
  induction docs with
  | nil => intro st x h; exact h
  | cons d rest ih =>
    intro st x h
    exact ih _ x (evalPolicyLoop_errors_mono c input t d input.policyPaths st x h)

theorem stepRecord_records (σ1 : RunState) (st : LoopState) (e : String)
    (o : PairOutcome)
    (h : o = PairOutcome.evalFailed e ∨ ∃ a, o = PairOutcome.publishFailed e a) :
    e ∈ (stepRecord σ1 st o).errors := by
  rcases h with h | ⟨a, h⟩ <;> subst h <;>
    simp [stepRecord, List.mem_append]

theorem evalPolicyLoop_records (c : Nat → Nat) (input : EvalInput) (t : Nat)
    (doc : NormalizedDoc) :
    ∀ (ps : List String) (st : LoopState),
      ∀ rec ∈ (evalPolicyLoop c input t doc ps st).1, ∀ e : String,
        (rec.outcome = PairOutcome.evalFailed e ∨
          ∃ a, rec.outcome = PairOutcome.publishFailed e a) →
        e ∈ (evalPolicyLoop c input t doc ps st).2.errors := by
  intro ps
  induction ps with
  | nil => intro st rec h; exact absurd h (List.not_mem_nil rec)
  | cons p rest ih =>
    intro st rec hmem e h
    have hmem' : rec ∈ ({ sgId := doc.securityGroupID,
                          policyPath := p,
                          outcome := (evalPair c input t doc p st.σ).1 } :: _ :
        List PairRecord) := hmem
    rcases List.mem_cons.mp hmem' with hl | hr
    · subst hl
      refine evalPolicyLoop_errors_mono c input t doc rest _ e ?_
      exact stepRecord_records _ st e _ h
    · exact ih _ rec hr e h

theorem evalGroupLoop_records (c : Nat → Nat) (input : EvalInput) (t : Nat) :
    ∀ (docs : List NormalizedDoc) (st : LoopState),
      ∀ rec ∈ (evalGroupLoop c input t docs st).1, ∀ e : String,
        (rec.outcome = PairOutcome.evalFailed e ∨
          ∃ a, rec.outcome = PairOutcome.publishFailed e a) →
        e ∈ (evalGroupLoop c input t docs st).2.errors := by
  intro docs
  induction docs with
  | nil => intro st rec h; exact absurd h (List.not_mem_nil rec)
  | cons d rest ih =>
    intro st rec hmem e h
    have hmem' : rec ∈ (evalPolicyLoop c input t d input.policyPaths st).1
        ++ (evalGroupLoop c input t rest
              (evalPolicyLoop c input t d input.policyPaths st).2).1 := hmem
    rcases List.mem_append.mp hmem' with hl | hr
    · refine evalGroupLoop_errors_mono c input t rest _ e ?_
      exact evalPolicyLoop_records c input t d input.policyPaths st rec hl e h
    · exact ih _ rec hr e h

theorem mainEval_ok_elim (clock : Nat → Nat) (input : EvalInput)
    (run : RunResult) (h : mainEval clock input = Except.ok run) :
    ∃ gs st0, input.fetch = Except.ok gs ∧
      st0.σ.nextUuid = 0 ∧
      (st0.status = Status.failure ↔ st0.errors ≠ []) ∧
      run.pairs = (evalGroupLoop clock input
        (readNow clock { nextUuid := 0, clockIdx := 0 }).1
        (gs.map normalize) st0).1 ∧
      run.status = (evalGroupLoop clock input
        (readNow clock { nextUuid := 0, clockIdx := 0 }).1
        (gs.map normalize) st0).2.status ∧
      run.errors = (evalGroupLoop clock input
        (readNow clock { nextUuid := 0, clockIdx := 0 }).1
        (gs.map normalize) st0).2.errors := by
  cases hf : input.fetch with
  | error e => simp [mainEval, hf] at h
  | ok gs =>
    cases hc : input.configErr with
    | some e =>
      simp only [mainEval, hf, hc] at h
      injection h with h
      subst h
      exact ⟨gs, ⟨(readNow clock { nextUuid := 0, clockIdx := 0 }).2,
        Status.failure, [e]⟩, rfl, rfl, by simp, rfl, rfl, rfl⟩
    | none =>
      simp only [mainEval, hf, hc] at h
      injection h with h
      subst h
      exact ⟨gs, ⟨(readNow clock { nextUuid := 0, clockIdx := 0 }).2,
        Status.success, []⟩, rfl, rfl, by simp, rfl, rfl, rfl⟩

/-! Claim theorems. -/

/-- C1: for a verdict whose violation list is non-empty (length N > 0) the
Evidence Assembler of `main.go` emits exactly one Observation and exactly N
Findings; every Finding has status not-satisfied and back-references exactly
the one Observation's id; that id is drawn from the fresh-identifier supply of
the pre-state (so it is assigned before any Finding is built, and the Findings
merely copy it); and across any whole run the emitted observation ids are
pairwise distinct. -/
theorem c1_violations_emit_one_observation_and_linked_findings
    (clock : Nat → Nat) (sgId : String) (r : PolicyResult) (σ : RunState)
    (clock2 : Nat → Nat) (input : EvalInput) (run : RunResult)
    (hviol : r.violations ≠ []) (hrun : mainEval clock2 input = Except.ok run) :
    ((assembleVerdict clock sgId r σ).1.observations.length = 1 ∧
     (assembleVerdict clock sgId r σ).1.findings.length = r.violations.length ∧
     (∀ obs ∈ (assembleVerdict clock sgId r σ).1.observations,
        obs.uuid = σ.nextUuid ∧
        ∀ f ∈ (assembleVerdict clock sgId r σ).1.findings,
          f.status = FindingStatus.notSatisfied ∧
          f.relatedObservations = [obs.uuid])) ∧
    ((runObservations run).map ProtoObservation.uuid).Nodup := by
  have hne : r.violations.isEmpty = false := by
    cases hv : r.violations with
    | nil => exact absurd hv hviol
    | cons a l => rfl
  constructor
  · simp only [assembleVerdict, hne, Bool.false_eq_true, if_false]
    refine ⟨rfl, by simp, ?_⟩
    intro obs hobs
    simp only [List.mem_singleton] at hobs
    subst hobs
    refine ⟨rfl, ?_⟩
    intro f hf
    simp only [List.mem_map] at hf
    obtain ⟨v, -, hv⟩ := hf
    subst hv
    exact ⟨rfl, rfl⟩
  · obtain ⟨gs, st0, -, h0, -, hp, -, -⟩ := mainEval_ok_elim clock2 input run hrun
    obtain ⟨k, hk, -⟩ := evalGroupLoop_σ_nextUuid clock2 input
      (readNow clock2 { nextUuid := 0, clockIdx := 0 }).1 (gs.map normalize) st0
    simp only [runObservations, hp]
    rw [hk, h0]
    exact List.nodup_range' 0 k

/-- C1 witness: a verdict with two violations, and the run `c1Input`. -/
theorem c1_witness :
    (verdictBad.violations ≠ []) ∧
    (mainEval tickClock c1Input = Except.ok c1Run) ∧
    (((assembleVerdict tickClock "sg-1" verdictBad
        { nextUuid := 0, clockIdx := 0 }).1.observations.length = 1 ∧
      (assembleVerdict tickClock "sg-1" verdictBad
        { nextUuid := 0, clockIdx := 0 }).1.findings.length
          = verdictBad.violations.length ∧
      (∀ obs ∈ (assembleVerdict tickClock "sg-1" verdictBad
          { nextUuid := 0, clockIdx := 0 }).1.observations,
        obs.uuid = 0 ∧
        ∀ f ∈ (assembleVerdict tickClock "sg-1" verdictBad
            { nextUuid := 0, clockIdx := 0 }).1.findings,
          f.status = FindingStatus.notSatisfied ∧
          f.relatedObservations = [obs.uuid]))) ∧
    ((runObservations c1Run).map ProtoObservation.uuid).Nodup := by
  have hv : verdictBad.violations ≠ [] := by decide
  have hr : mainEval tickClock c1Input = Except.ok c1Run := rfl
  have h := c1_violations_emit_one_observation_and_linked_findings
    tickClock "sg-1" verdictBad { nextUuid := 0, clockIdx := 0 }
    tickClock c1Input c1Run hv hr
  exact ⟨hv, hr, h.1, h.2⟩

/-- C2: for a verdict whose violation list is empty the Evidence Assembler of
`main.go` emits exactly one Observation and exactly one Finding, the Finding
has status satisfied and carries no back-reference to any Observation id. -/
theorem c2_clean_verdict_emits_satisfied_finding_without_backref
    (clock : Nat → Nat) (sgId : String) (r : PolicyResult) (σ : RunState)
    (hviol : r.violations = []) :
    (assembleVerdict clock sgId r σ).1.observations.length = 1 ∧
    (assembleVerdict clock sgId r σ).1.findings.length = 1 ∧
    ∀ f ∈ (assembleVerdict clock sgId r σ).1.findings,
      f.status = FindingStatus.satisfied ∧ f.relatedObservations = [] := by
  have hE : r.violations.isEmpty = true := by rw [hviol]; rfl
  simp only [assembleVerdict, hE, if_true]
  refine ⟨rfl, rfl, ?_⟩
  intro f hf
  simp only [List.mem_singleton] at hf
  subst hf
  exact ⟨rfl, rfl⟩

/-- C2 witness: the clean verdict `verdictClean`. -/
theorem c2_witness :
    (verdictClean.violations = []) ∧
    ((assembleVerdict tickClock "sg-1" verdictClean
        { nextUuid := 0, clockIdx := 0 }).1.observations.length = 1 ∧
     (assembleVerdict tickClock "sg-1" verdictClean
        { nextUuid := 0, clockIdx := 0 }).1.findings.length = 1 ∧
     ∀ f ∈ (assembleVerdict tickClock "sg-1" verdictClean
         { nextUuid := 0, clockIdx := 0 }).1.findings,
       f.status = FindingStatus.satisfied ∧ f.relatedObservations = []) :=
  ⟨rfl, c2_clean_verdict_emits_satisfied_finding_without_backref
    tickClock "sg-1" verdictClean { nextUuid := 0, clockIdx := 0 } rfl⟩

/-- C3: the stream identifier is a pure function of the seed-label map
(resource type, policy path, resource id): equal maps give equal identifiers
and distinct maps give distinct identifiers (so varying any one of the three
inputs changes it); and the identifier `main.go` hands to the sink for a
(resource, policy) pair is exactly the seeded identifier of
type "aws", that pair's policy path and that pair's security group id. -/
theorem c3_stream_identifier_deterministic_and_injective :
    (∀ m m' : SeedMap, SeededUUID m = SeededUUID m' ↔ m = m') ∧
    (∀ (clock : Nat → Nat) (input : EvalInput) (t : Nat)
       (doc : NormalizedDoc) (p : String) (σ : RunState) (a : Published),
       ((evalPair clock input t doc p σ).1 = PairOutcome.published a ∨
         ∃ e, (evalPair clock input t doc p σ).1
           = PairOutcome.publishFailed e a) →
       a.streamId = SeededUUID
         { type := "aws", policy := p
           security_group_id := doc.securityGroupID }) := by
  constructor
  · intro m m'
    constructor
    · intro h
      simp only [SeededUUID, List.cons.injEq, Prod.mk.injEq, true_and,
        and_true] at h
      obtain ⟨h1, h2, h3⟩ := h
      cases m
      cases m'
      simp only at h1 h2 h3
      subst h1
      subst h2
      subst h3
      rfl
    · rintro rfl
      rfl
  · exact fun clock input t doc p σ a h =>
      evalPair_streamId clock input t doc p σ a h

/-- C3 witness: the pair (sgSample, "policies/a") of `c9Input` publishes, and
its stream identifier is the seeded identifier of its three labels. -/
theorem c3_witness :
    ((evalPair tickClock c9Input 0 (normalize sgSample) "policies/a"
        { nextUuid := 0, clockIdx := 0 }).1 = PairOutcome.published c3wPub ∨
      ∃ e, (evalPair tickClock c9Input 0 (normalize sgSample) "policies/a"
        { nextUuid := 0, clockIdx := 0 }).1
          = PairOutcome.publishFailed e c3wPub) ∧
    c3wPub.streamId = SeededUUID
      { type := "aws", policy := "policies/a"
        security_group_id := (normalize sgSample).securityGroupID } := by
  have hd : (evalPair tickClock c9Input 0 (normalize sgSample) "policies/a"
      { nextUuid := 0, clockIdx := 0 }).1 = PairOutcome.published c3wPub := rfl
  exact ⟨Or.inl hd,
    c3_stream_identifier_deterministic_and_injective.2 tickClock c9Input 0
      (normalize sgSample) "policies/a" { nextUuid := 0, clockIdx := 0 }
      c3wPub (Or.inl hd)⟩

/-- C4 (amended): in `main.go`'s Eval a policy-evaluation failure or a publish
failure is recorded into the accumulated error and the loops continue, so the
processed pair trace always covers every (resource, policy) pair of the run in
order — a publish failure on one pair never prevents later pairs.  (The
variant Eval of the unnamed part file instead returns immediately on a publish
failure; see the accompanying counterexample.) -/
theorem c4_main_eval_continues_after_failures
    (clock : Nat → Nat) (input : EvalInput) (gs : List SecurityGroup)
    (run : RunResult) (hf : input.fetch = Except.ok gs)
    (hrun : mainEval clock input = Except.ok run) :
    (run.pairs.map (fun rec => (rec.sgId, rec.policyPath))
      = (gs.map normalize).flatMap fun d =>
          input.policyPaths.map fun p => (d.securityGroupID, p)) ∧
    (∀ rec ∈ run.pairs, ∀ e : String,
       (rec.outcome = PairOutcome.evalFailed e ∨
         ∃ a, rec.outcome = PairOutcome.publishFailed e a) →
       e ∈ run.errors) := by
  obtain ⟨gs', st0, hf', -, -, hp, -, he⟩ := mainEval_ok_elim clock input run hrun
  rw [hf] at hf'
  injection hf' with hgs
  subst hgs
  constructor
  · rw [hp, evalGroupLoop_keys]
  · intro rec hmem e hout
    rw [hp] at hmem
    rw [he]
    exact evalGroupLoop_records clock input
      (readNow clock { nextUuid := 0, clockIdx := 0 }).1
      (gs.map normalize) st0 rec hmem e hout

/-- C4 counterexample: in the variant Eval (unnamed part file, lines 158-170)
a publish failure on the first resource returns immediately with FAILURE and
that single error, so the second resource present in the fetched list is never
evaluated or published — refuting the claim that a publish failure never
prevents subsequent pairs and never aborts the run. -/
theorem c4_variant_publish_failure_aborts_run :
    variantEval c4vInput = Except.ok
      { evaluated := ["sg-1"], delivered := []
        status := Status.failure, errors := ["sink down"] } ∧
    c4vInput.fetch = Except.ok [sgSample, sgSample2] ∧
    awsToString sgSample2.groupId = "sg-2" :=
  ⟨rfl, rfl, rfl⟩

/-- C4 witness: one group and two policy paths with the sink failing on the
first path only; both pairs appear in the trace and the error is recorded. -/
theorem c4_witness :
    (c4wInput.fetch = Except.ok [sgSample]) ∧
    (mainEval tickClock c4wInput = Except.ok c4wRun) ∧
    ((c4wRun.pairs.map (fun rec => (rec.sgId, rec.policyPath))
       = ([sgSample].map normalize).flatMap fun d =>
           c4wInput.policyPaths.map fun p => (d.securityGroupID, p)) ∧
     (∀ rec ∈ c4wRun.pairs, ∀ e : String,
        (rec.outcome = PairOutcome.evalFailed e ∨
          ∃ a, rec.outcome = PairOutcome.publishFailed e a) →
        e ∈ c4wRun.errors)) := by
  have h1 : c4wInput.fetch = Except.ok [sgSample] := rfl
  have h2 : mainEval tickClock c4wInput = Except.ok c4wRun := rfl
  exact ⟨h1, h2, c4_main_eval_continues_after_failures
    tickClock c4wInput [sgSample] c4wRun h1 h2⟩

/-- C5: whenever `main.go`'s Eval returns, its status is FAILURE exactly when
at least one error cause was accumulated, and an empty accumulated error means
status SUCCESS — never a failure silently reported as success nor a FAILURE
with a nil combined error. -/
theorem c5_status_failure_iff_errors
    (clock : Nat → Nat) (input : EvalInput) (run : RunResult)
    (h : mainEval clock input = Except.ok run) :
    (run.status = Status.failure ↔ run.errors ≠ []) ∧
    (run.errors = [] → run.status = Status.success) := by
  obtain ⟨gs, st0, -, -, hinv, -, hs, he⟩ := mainEval_ok_elim clock input run h
  have hiff := evalGroupLoop_inv clock input
    (readNow clock { nextUuid := 0, clockIdx := 0 }).1 (gs.map normalize) st0 hinv
  rw [hs, he]
  refine ⟨hiff, fun hnil => ?_⟩
  by_contra hne
  have hfail : (evalGroupLoop clock input
      (readNow clock { nextUuid := 0, clockIdx := 0 }).1
      (gs.map normalize) st0).2.status = Status.failure := by
    cases hst : (evalGroupLoop clock input
        (readNow clock { nextUuid := 0, clockIdx := 0 }).1
        (gs.map normalize) st0).2.status with
    | success => exact absurd hst hne
    | failure => rfl
  exact absurd hnil (hiff.mp hfail)

/-- C5 witness: a run whose policy evaluator fails: status FAILURE and a
non-empty combined error. -/
theorem c5_witness :
    (mainEval tickClock c5wInput = Except.ok c5wRun) ∧
    ((c5wRun.status = Status.failure ↔ c5wRun.errors ≠ []) ∧
     (c5wRun.errors = [] → c5wRun.status = Status.success)) :=
  ⟨rfl, c5_status_failure_iff_errors tickClock c5wInput c5wRun rfl⟩

/-- C6: for every verdict, with or without violations, `main.go` emits exactly
one Risk artifact per RiskEntry, carrying the entry's title, description and
statement verbatim and translating its ordered links one-to-one, each
{url, text} into one output link {href, text}. -/
theorem c6_risk_entries_emitted_verbatim
    (clock : Nat → Nat) (sgId : String) (r : PolicyResult) (σ : RunState) :
    (assembleVerdict clock sgId r σ).1.risks = r.risks.map riskToProto ∧
    (assembleVerdict clock sgId r σ).1.risks.length = r.risks.length ∧
    (∀ e : RiskEntry,
      (riskToProto e).title = e.title ∧
      (riskToProto e).description = e.description ∧
      (riskToProto e).statement = e.statement ∧
      (riskToProto e).links = e.links.map riskLinkToProto ∧
      (riskToProto e).links.length = e.links.length) ∧
    (∀ l : RiskLink,
      (riskLinkToProto l).href = l.url ∧ (riskLinkToProto l).text = some l.text) := by
  refine ⟨?_, ?_, ?_, ?_⟩
  · unfold assembleVerdict
    split <;> rfl
  · unfold assembleVerdict
    split <;> simp
  · intro e
    exact ⟨rfl, rfl, rfl, rfl, by simp [riskToProto]⟩
  · intro l
    exact ⟨rfl, rfl⟩

/-- C7: when DescribeSecurityGroups fails, `main.go` records the error but
then iterates over the nil output pointer's field, a runtime panic — the run
does not terminate normally with a FAILURE status as the claim states. -/
theorem c7_fetch_failure_panics :
    mainEval tickClock c7Input = Except.error () := rfl

/-- C8: the variant Eval dereferences the optional VpcId (and GroupName)
pointers of the provider resource without nil checks; on a security group with
no VPC id it panics instead of omitting the absent field. -/
theorem c8_missing_vpc_id_panics :
    variantEval c8Input = Except.error () := rfl

/-- C9 counterexample: under a strictly increasing clock the first observation
of the run `c9Run` has an expiry that is not its collection timestamp plus one
month, because the expiry is computed from a second, later time.Now() call. -/
theorem c9_expiry_equals_collection_plus_month_refuted :
    ∃ obs ∈ runObservations c9Run, obs.expires ≠ addOneMonth obs.collected := by
  decide

/-- C9 (amended): every emitted Observation's expiry equals one calendar month
after the clock value read by the time.Now() call immediately following the
collection read; under a monotone clock this reading is at or after the
collection timestamp, and the two coincide exactly when the clock does not
advance between the two calls. -/
theorem c9_expiry_from_second_clock_read
    (clock : Nat → Nat) (input : EvalInput) (run : RunResult)
    (hmono : Monotone clock) (h : mainEval clock input = Except.ok run) :
    ∀ obs ∈ runObservations run,
      (∃ i, obs.collected = clock i ∧ obs.expires = addOneMonth (clock (i + 1))) ∧
      ∃ t, obs.collected ≤ t ∧ obs.expires = addOneMonth t := by
  obtain ⟨gs, st0, -, -, -, hp, -, -⟩ := mainEval_ok_elim clock input run h
  intro obs hobs
  simp only [runObservations, hp] at hobs
  obtain ⟨i, hc, he⟩ := evalGroupLoop_obs_clock clock input
    (readNow clock { nextUuid := 0, clockIdx := 0 }).1
    (gs.map normalize) st0 obs hobs
  refine ⟨⟨i, hc, he⟩, ⟨clock (i + 1), ?_, he⟩⟩
  rw [hc]
  exact hmono (Nat.le_succ i)

/-- C9 witness: the strictly increasing clock is monotone and the run
`c9Run` satisfies the amended expiry property. -/
theorem c9_witness :
    Monotone tickClock ∧
    (mainEval tickClock c9Input = Except.ok c9Run) ∧
    (∀ obs ∈ runObservations c9Run,
      (∃ i, obs.collected = tickClock i ∧
        obs.expires = addOneMonth (tickClock (i + 1))) ∧
      ∃ t, obs.collected ≤ t ∧ obs.expires = addOneMonth t) := by
  have hm : Monotone tickClock := fun _ _ hab => hab
  have hr : mainEval tickClock c9Input = Except.ok c9Run := rfl
  exact ⟨hm, hr, c9_expiry_from_second_clock_read tickClock c9Input c9Run hm hr⟩

/-- C10: Configure never fails: for every request it returns the empty
response and a nil error, and its only effect is to replace the stored
configuration map wholesale with the request's map. -/
theorem c10_configure_never_fails
    (s : PluginState) (req : List (String × String)) :
    (Configure s req).1.config = req ∧ (Configure s req).2.2 = none :=
  ⟨rfl, rfl⟩

end AwsNetSec
